import Mathlib

/-!
Verification of the consul-resolver selection/scoring engine.

The definitions below are a shallow embedding of the TypeScript sources:
`src/scoring/index.ts` and `src/algorithms/index.ts` (the pure scoring and
selection functions), the `MetricsManager` (metrics-cache read/modify/write),
and the most complete `ConsulResolver.selectOptimalService` orchestrator
(the DNS+health+metrics reconciliation variant).

Modelling conventions:
 - JS numbers are modelled as `ℚ` (scores, weights, random draws) or `Int`
   (ports, priorities, connection counts, epoch-ms timestamps).
 - `Math.random()` is threaded as an explicit parameter `rand` with
   `0 ≤ rand < 1` where a theorem needs it.
 - JS `x || d` zero/empty coalescing is modelled explicitly (`qOr`, `intOr`,
   `jsStr`); an absent optional SRV `weight` is identified with `0`, which is
   exactly how every use in the source coalesces it.
 - The external TTL key-value store is a function `String → Option ServiceMetrics`
   (JSON serialize/parse of a well-formed record round-trips identically);
   arbitrary store bytes are covered by abstract decode functions
   `String → Option ServiceMetrics` where `none` models a JSON.parse throw.
 - Thrown JS errors are `Except.error` with the thrown message.
-/

/-- One health check of a service instance (`check.Status` in the source). -/
structure HealthCheck where
  Status : String
deriving DecidableEq

/-- The `Service` part of a health-checked instance. -/
structure ServiceInfo where
  ID : String
  Address : String
  Port : Int
deriving DecidableEq

/-- A health-checked service instance as returned by the health provider. -/
structure ServiceHealth where
  Service : ServiceInfo
  Checks : List HealthCheck
deriving DecidableEq

/-- A DNS SRV record (the TS `weight?: number` is coalesced to `0` when absent,
matching every `record.weight || d` use in the source). -/
structure SrvRecord where
  name : String
  ip : String
  port : Int
  priority : Int
  weight : ℚ
deriving DecidableEq

/-- The per-service metrics blob stored in the key-value store. -/
structure ServiceMetrics where
  responseTime : ℚ
  errorRate : ℚ
  cpuUsage : ℚ
  memoryUsage : ℚ
  activeConnections : Int
  lastSelectedTime : Option Int
deriving DecidableEq

/-- `DEFAULT_METRICS` from `src/types`. -/
def DEFAULT_METRICS : ServiceMetrics :=
  { responseTime := 100, errorRate := 0, cpuUsage := 50, memoryUsage := 50
    activeConnections := 0, lastSelectedTime := none }

/-- The six scoring coefficients. -/
structure WeightConfig where
  health : ℚ
  responseTime : ℚ
  errorRate : ℚ
  resources : ℚ
  connections : ℚ
  distribution : ℚ
deriving DecidableEq

/-- `DEFAULT_WEIGHTS` from `src/types`. -/
def DEFAULT_WEIGHTS : WeightConfig :=
  { health := 1/4, responseTime := 1/5, errorRate := 1/5
    resources := 3/20, connections := 1/10, distribution := 1/10 }

/-- The closed selection-algorithm enum. -/
inductive SelectionAlgorithm where
  | RoundRobin
  | LeastConnection
  | WeightedRoundRobin
deriving DecidableEq

/-- JS `v || d` for a rational number: `0` is falsy. -/
def qOr (v d : ℚ) : ℚ := if v = 0 then d else v

/-- JS `v || d` for an integer: `0` is falsy. -/
def intOr (v d : Int) : Int := if v = 0 then d else v

/-- JS truthiness of an optional string: `undefined`/`null` and `""` are falsy. -/
def jsStr (o : Option String) : Option String :=
  match o with
  | none => none
  | some s => if s = "" then none else some s

/-- `service.Checks.every(check => check.Status === "passing")`. -/
def isPassingAll (s : ServiceHealth) : Bool :=
  s.Checks.all (fun c => c.Status = "passing")

/-- `calculateHealthScore` from `src/scoring/index.ts`: passing checks over
total checks, with the explicit empty-list guard returning 0. -/
def calculateHealthScore (service : ServiceHealth) : ℚ :=
  if service.Checks.length = 0 then 0
  else ((service.Checks.filter (fun c => c.Status = "passing")).length : ℚ) /
       (service.Checks.length : ℚ)

/-- `normalizeScore` from `src/scoring/index.ts`. -/
def normalizeScore (value mx : ℚ) (inverse : Bool) : ℚ :=
  let normalized := max 0 (min 1 (value / mx))
  if inverse then 1 - normalized else normalized

/-- `calculateResourceScore` from `src/scoring/index.ts`. -/
def calculateResourceScore (metrics : ServiceMetrics) : ℚ :=
  (normalizeScore metrics.cpuUsage 100 true + normalizeScore metrics.memoryUsage 100 true) / 2

/-- `calculateDistributionScore` from `src/scoring/index.ts`; `Date.now()` is
the explicit parameter `now`.  The JS guard `if (!lastSelectedTime) return 1`
is truthy-based, so a stored value of `0` also yields 1. -/
def calculateDistributionScore (now : Int) (lastSelectedTime : Option Int) : ℚ :=
  match lastSelectedTime with
  | none => 1
  | some t =>
    if t = 0 then 1
    else min (((now - t : Int) : ℚ) / (5 * 60 * 1000)) 1

/-- `combineHealthAndDNSWeights` from `src/scoring/index.ts`. -/
def combineHealthAndDNSWeights (service : ServiceHealth) (dnsWeight maxDNSWeight : ℚ) : ℚ :=
  calculateHealthScore service * (7/10) + (dnsWeight / maxDNSWeight) * (3/10)

/-- C6: `calculateHealthScore` is the ratio of passing checks to total checks,
and is `0` (a genuine rational, not NaN) on an empty check list.  In `ℚ` the
ratio form also covers the empty case since `x / 0 = 0`. -/
theorem calculateHealthScore_ratio_and_empty (service : ServiceHealth) :
    calculateHealthScore service =
      ((service.Checks.filter (fun c => c.Status = "passing")).length : ℚ) /
        (service.Checks.length : ℚ) ∧
    (service.Checks = [] → calculateHealthScore service = 0) := by
  constructor
  · unfold calculateHealthScore
    by_cases h : service.Checks.length = 0
    · simp [h]
    · simp [h]
  · intro h
    unfold calculateHealthScore
    simp [h]

/-- Witness for C6 at a concrete instance with an empty check list. -/
theorem calculateHealthScore_ratio_and_empty_witness :
    calculateHealthScore { Service := { ID := "a", Address := "1.2.3.4", Port := 80 }
                           Checks := [] } = 0 :=
  (calculateHealthScore_ratio_and_empty
    { Service := { ID := "a", Address := "1.2.3.4", Port := 80 }, Checks := [] }).2 rfl

/-- C9: `calculateDistributionScore` clamps only from above.  It returns 1
for an unset `lastSelectedTime`; for a defined nonzero `lastSelectedTime` it
returns exactly `min(elapsed / 300000, 1)` on every clock, with no lower bound
at 0; on any clock at least five minutes past the epoch (every real
`Date.now()`) the formula holds for every defined `lastSelectedTime`,
including the `t = 0` corner where the JS falsy guard also returns 1; and on
every clock a `lastSelectedTime` in the future yields a strictly negative
score (witnessed existentially, and for every nonzero future time). -/
theorem calculateDistributionScore_no_lower_clamp (now : Int) :
    calculateDistributionScore now none = 1 ∧
    (∀ t : Int, t ≠ 0 → calculateDistributionScore now (some t) =
      min (((now - t : Int) : ℚ) / 300000) 1) ∧
    (300000 ≤ now → ∀ t : Int, calculateDistributionScore now (some t) =
      min (((now - t : Int) : ℚ) / 300000) 1) ∧
    (∀ t : Int, now < t → t ≠ 0 → calculateDistributionScore now (some t) < 0) ∧
    (∃ t : Int, now < t ∧ calculateDistributionScore now (some t) < 0) := by
  have hformula : ∀ t : Int, t ≠ 0 → calculateDistributionScore now (some t) =
      min (((now - t : Int) : ℚ) / 300000) 1 := by
    intro t ht
    unfold calculateDistributionScore
    simp only [if_neg ht]
    norm_num
  have hneg : ∀ t : Int, now < t → t ≠ 0 →
      calculateDistributionScore now (some t) < 0 := by
    intro t ht htz
    rw [hformula t htz]
    have hq : ((now - t : Int) : ℚ) / 300000 < 0 := by
      apply div_neg_of_neg_of_pos
      · exact_mod_cast (by omega : (now - t : Int) < 0)
      · norm_num
    calc min (((now - t : Int) : ℚ) / 300000) 1
        ≤ ((now - t : Int) : ℚ) / 300000 := min_le_left _ _
      _ < 0 := hq
  refine ⟨rfl, hformula, ?_, hneg, ?_⟩
  · intro hnow t
    by_cases ht : t = 0
    · subst ht
      have h1 : (1 : ℚ) ≤ ((now - 0 : Int) : ℚ) / 300000 := by
        rw [le_div_iff₀ (by norm_num : (0:ℚ) < 300000)]
        have h2 : ((300000 : Int) : ℚ) ≤ ((now - 0 : Int) : ℚ) := by
          exact_mod_cast (by omega : (300000 : Int) ≤ now - 0)
        calc (1 : ℚ) * 300000 = ((300000 : Int) : ℚ) := by norm_num
          _ ≤ _ := h2
      rw [min_eq_right h1]
      rfl
    · exact hformula t ht
  · refine ⟨max now 0 + 1, ?_, ?_⟩
    · have := le_max_left now 0
      omega
    · apply hneg
      · have := le_max_left now 0
        omega
      · have := le_max_right now 0
        omega

/-- Witness for C9 at `now = 300000`: the formula at the falsy corner `t = 0`
and a strictly negative score at a future selection time. -/
theorem calculateDistributionScore_no_lower_clamp_witness :
    calculateDistributionScore 300000 none = 1 ∧
    calculateDistributionScore 300000 (some 0) =
      min (((300000 - 0 : Int) : ℚ) / 300000) 1 ∧
    calculateDistributionScore 300000 (some 600000) < 0 := by
  have h := calculateDistributionScore_no_lower_clamp 300000
  exact ⟨h.1, h.2.2.1 (by norm_num) 0,
    h.2.2.2.1 600000 (by norm_num) (by norm_num)⟩

/-! ## SelectionEngine: `src/algorithms/index.ts` -/

/-- Result of the pure `roundRobinSelection` (`{id, service, nextIndex}`). -/
structure RRResult where
  id : String
  service : ServiceHealth
  nextIndex : Nat
deriving DecidableEq

/-- A ranked candidate (`{score, id, service}`). -/
structure RankedService where
  score : ℚ
  id : String
  service : ServiceHealth
deriving DecidableEq

/-- A selected service (`{id, service}`). -/
structure SelectedService where
  id : String
  service : ServiceHealth
deriving DecidableEq

/-- `{selected, nextIndex}` returned by the SRV-record selectors. -/
structure SrvSelection where
  selected : SrvRecord
  nextIndex : Nat
deriving DecidableEq

/-- A JS `Map<string, ServiceMetrics>` as an association list: `set` updates an
existing key in place or appends, `get` finds the unique entry. -/
def mapSet (m : List (String × ServiceMetrics)) (k : String) (v : ServiceMetrics) :
    List (String × ServiceMetrics) :=
  match m with
  | [] => [(k, v)]
  | (k', v') :: rest => if k' = k then (k, v) :: rest else (k', v') :: mapSet rest k v

/-- Lookup in the association-list map. -/
def mapGet (m : List (String × ServiceMetrics)) (k : String) : Option ServiceMetrics :=
  (m.find? (fun p => p.1 = k)).map (fun p => p.2)

/-- `roundRobinSelection` from `src/algorithms/index.ts`: filter to instances
whose every check passes, fail when none remain, otherwise pick by
`cursor % N` and advance the cursor. -/
def roundRobinSelection (services : List ServiceHealth) (currentIndex : Nat) :
    Except String RRResult :=
  if h : (services.filter isPassingAll).length = 0 then
    Except.error "No healthy services available"
  else
    Except.ok
      ⟨((services.filter isPassingAll).get
          ⟨currentIndex % (services.filter isPassingAll).length,
            Nat.mod_lt _ (Nat.pos_of_ne_zero h)⟩).Service.ID,
        (services.filter isPassingAll).get
          ⟨currentIndex % (services.filter isPassingAll).length,
            Nat.mod_lt _ (Nat.pos_of_ne_zero h)⟩,
        (currentIndex + 1) % (services.filter isPassingAll).length⟩

/-- `leastConnectionSelection`: health filter, read `activeConnections`
(defaulting when the id is absent from the metrics map), stable left-to-right
minimum. -/
def leastConnectionSelection (defaultMetrics : ServiceMetrics)
    (services : List ServiceHealth) (metrics : List (String × ServiceMetrics)) :
    Except String SelectedService :=
  match (services.filter isPassingAll).map
      (fun s => (s, intOr ((mapGet metrics s.Service.ID).getD defaultMetrics).activeConnections 0)) with
  | [] => Except.error "No healthy services available"
  | first :: rest =>
    Except.ok
      ⟨((rest.foldl (fun mn cur => if cur.2 < mn.2 then cur else mn) first).1).Service.ID,
        (rest.foldl (fun mn cur => if cur.2 < mn.2 then cur else mn) first).1⟩

/-- The roulette-wheel walk shared by `weightedRandomSelection` and
`weightedSrvRecordSelection`: subtract each entry's score from the running
remainder and return the entry at which it first drops to `≤ 0`. -/
def wheelLoop {α : Type} (f : α → ℚ) : List α → ℚ → Option α
  | [], _ => none
  | x :: xs, r => if r - f x ≤ 0 then some x else wheelLoop f xs (r - f x)

/-- Sum of the first `n` values of `f` over `l` (the running prefix of the
roulette wheel). -/
def firstSum {α : Type} (f : α → ℚ) (l : List α) (n : Nat) : ℚ :=
  ((l.map f).take n).sum

/-- `weightedRandomSelection` from `src/algorithms/index.ts` (the resolver's
private copy in the spec-target variant is identical); `Math.random()` is the
parameter `rand`. -/
def weightedRandomSelection (rankedServices : List RankedService) (rand : ℚ) :
    Except String SelectedService :=
  match rankedServices with
  | [] => Except.error "No services available for selection"
  | first :: rest =>
    if (first :: rest).foldl (fun sum s => sum + s.score) 0 ≤ 0 then
      Except.ok ⟨first.id, first.service⟩
    else
      match wheelLoop (fun s => s.score) (first :: rest)
          (rand * (first :: rest).foldl (fun sum s => sum + s.score) 0) with
      | some s => Except.ok ⟨s.id, s.service⟩
      | none => Except.ok ⟨first.id, first.service⟩

/-- `roundRobinSrvSelection` from `src/algorithms/index.ts`. -/
def roundRobinSrvSelection (records : List SrvRecord) (currentIndex : Nat) :
    Option SrvSelection :=
  if h : records.length = 0 then none
  else
    some ⟨records.get ⟨currentIndex % records.length, Nat.mod_lt _ (Nat.pos_of_ne_zero h)⟩,
          (currentIndex + 1) % records.length⟩

/-- `weightedSrvRecordSelection` from `src/algorithms/index.ts`: degrade to
round robin when no record's weight is positive, otherwise roulette-wheel over
the weights with a zero/absent weight counted as 1 in the summation. -/
def weightedSrvRecordSelection (records : List SrvRecord) (currentIndex : Nat) (rand : ℚ) :
    Option SrvSelection :=
  if h : records.length = 0 then none
  else
    if records.any (fun r => 0 < qOr r.weight 0) = false then
      roundRobinSrvSelection records currentIndex
    else
      match wheelLoop (fun r => qOr r.weight 1) records
          (rand * records.foldl (fun sum r => sum + qOr r.weight 1) 0) with
      | some r => some ⟨r, currentIndex⟩
      | none => some ⟨records.get ⟨0, Nat.pos_of_ne_zero h⟩, currentIndex⟩

/-! ### Wheel-walk lemmas -/

theorem firstSum_cons {α : Type} (f : α → ℚ) (x : α) (xs : List α) (n : Nat) :
    firstSum f (x :: xs) (n + 1) = f x + firstSum f xs n := by
  simp [firstSum]

theorem foldl_add_eq_sum {α : Type} (f : α → ℚ) (l : List α) :
    ∀ c : ℚ, l.foldl (fun s x => s + f x) c = c + (l.map f).sum := by
  induction l with
  | nil => intro c; simp
  | cons x xs ih => intro c; simp [ih, add_assoc]

theorem wheelLoop_spec {α : Type} (f : α → ℚ) :
    ∀ (l : List α) (t : ℚ) (a : α), wheelLoop f l t = some a →
      ∃ j, ∃ hj : j < l.length, a = l.get ⟨j, hj⟩ ∧
        t ≤ firstSum f l (j + 1) ∧ ∀ k < j, firstSum f l (k + 1) < t := by
  intro l
  induction l with
  | nil => intro t a h; simp [wheelLoop] at h
  | cons x xs ih =>
    intro t a h
    by_cases hc : t - f x ≤ 0
    · rw [wheelLoop, if_pos hc] at h
      refine ⟨0, by simp, ?_, ?_, ?_⟩
      · simpa using (Option.some.inj h).symm
      · rw [firstSum_cons]
        have : firstSum f xs 0 = 0 := by simp [firstSum]
        rw [this]
        linarith
      · intro k hk; omega
    · rw [wheelLoop, if_neg hc] at h
      obtain ⟨j, hj, ha, hcov, hmin⟩ := ih (t - f x) a h
      refine ⟨j + 1, by simpa using Nat.succ_lt_succ hj, ?_, ?_, ?_⟩
      · simpa using ha
      · rw [firstSum_cons]; linarith
      · intro k hk
        cases k with
        | zero =>
          rw [firstSum_cons]
          have : firstSum f xs 0 = 0 := by simp [firstSum]
          rw [this]
          linarith [not_le.mp hc]
        | succ k' =>
          rw [firstSum_cons]
          have := hmin k' (by omega)
          linarith

theorem wheelLoop_isSome {α : Type} (f : α → ℚ) :
    ∀ (l : List α) (t : ℚ), l ≠ [] → t ≤ (l.map f).sum → (wheelLoop f l t).isSome = true := by
  intro l
  induction l with
  | nil => intro t h _; exact absurd rfl h
  | cons x xs ih =>
    intro t _ hle
    simp only [List.map_cons, List.sum_cons] at hle
    by_cases hc : t - f x ≤ 0
    · rw [wheelLoop, if_pos hc]; rfl
    · have hxs : xs ≠ [] := by
        intro hnil
        subst hnil
        simp at hle
        exact hc (by linarith)
      rw [wheelLoop, if_neg hc]
      exact ih (t - f x) hxs (by linarith)

/-! ### C3: round-robin correctness and the full cycle -/

/-- The cursor sequence produced by feeding each round-robin call's
`nextIndex` back in as the next cursor, starting from 0. -/
def rrCursorIter (services : List ServiceHealth) : Nat → Nat
  | 0 => 0
  | i + 1 =>
    match roundRobinSelection services (rrCursorIter services i) with
    | Except.ok r => r.nextIndex
    | Except.error _ => rrCursorIter services i

theorem roundRobinSelection_ok (services : List ServiceHealth)
    (h : (services.filter isPassingAll).length ≠ 0) (currentIndex : Nat) :
    roundRobinSelection services currentIndex =
      Except.ok
        ⟨((services.filter isPassingAll).get
            ⟨currentIndex % (services.filter isPassingAll).length,
              Nat.mod_lt _ (Nat.pos_of_ne_zero h)⟩).Service.ID,
          (services.filter isPassingAll).get
            ⟨currentIndex % (services.filter isPassingAll).length,
              Nat.mod_lt _ (Nat.pos_of_ne_zero h)⟩,
          (currentIndex + 1) % (services.filter isPassingAll).length⟩ := by
  unfold roundRobinSelection
  rw [dif_neg h]

theorem rrCursorIter_mod (services : List ServiceHealth)
    (h : (services.filter isPassingAll).length ≠ 0) :
    ∀ i, rrCursorIter services i = i % (services.filter isPassingAll).length := by
  intro i
  induction i with
  | zero => simp [rrCursorIter]
  | succ i ih =>
    rw [rrCursorIter, ih, roundRobinSelection_ok services h]
    exact Nat.mod_add_mod _ _ _

/-- C3: `roundRobinSelection` filters to the instances whose every check is
passing; it fails with the no-healthy-instances error exactly when none
remain; otherwise it returns the healthy instance at `cursor % N` together
with `nextIndex = (cursor+1) % N < N`; and the `i`-th of `N` successive calls
starting at cursor 0 returns the `i`-th healthy instance, so each healthy
instance is visited exactly once before the cycle repeats. -/
theorem roundRobinSelection_cycle (services : List ServiceHealth) (cursor : Nat) :
    ((services.filter isPassingAll).length = 0 →
      roundRobinSelection services cursor = Except.error "No healthy services available") ∧
    ((services.filter isPassingAll).length ≠ 0 →
      ∃ svc, (services.filter isPassingAll).get?
          (cursor % (services.filter isPassingAll).length) = some svc ∧
        roundRobinSelection services cursor =
          Except.ok ⟨svc.Service.ID, svc, (cursor + 1) % (services.filter isPassingAll).length⟩ ∧
        (cursor + 1) % (services.filter isPassingAll).length <
          (services.filter isPassingAll).length) ∧
    ((services.filter isPassingAll).length ≠ 0 →
      ∀ i, i < (services.filter isPassingAll).length →
        ∃ svc, (services.filter isPassingAll).get? i = some svc ∧
          ∃ r, roundRobinSelection services (rrCursorIter services i) = Except.ok r ∧
            r.service = svc ∧ r.nextIndex < (services.filter isPassingAll).length) := by
  refine ⟨?_, ?_, ?_⟩
  · intro h
    unfold roundRobinSelection
    rw [dif_pos h]
  · intro h
    refine ⟨_, List.get?_eq_get (Nat.mod_lt _ (Nat.pos_of_ne_zero h)), ?_, ?_⟩
    · exact roundRobinSelection_ok services h cursor
    · exact Nat.mod_lt _ (Nat.pos_of_ne_zero h)
  · intro h i hi
    have hcur : rrCursorIter services i = i := by
      rw [rrCursorIter_mod services h i, Nat.mod_eq_of_lt hi]
    refine ⟨_, List.get?_eq_get hi, ?_⟩
    rw [hcur]
    refine ⟨_, roundRobinSelection_ok services h i, ?_, ?_⟩
    · show (services.filter isPassingAll).get _ = (services.filter isPassingAll).get ⟨i, hi⟩
      congr 1
      exact Fin.ext (Nat.mod_eq_of_lt hi)
    · show (i + 1) % (services.filter isPassingAll).length < _
      exact Nat.mod_lt _ (Nat.pos_of_ne_zero h)

/-- A fully passing sample instance. -/
def svcPassing : ServiceHealth :=
  ⟨⟨"s1", "10.0.0.1", 80⟩, [⟨"passing"⟩]⟩

/-- A sample instance with a critical check. -/
def svcCritical : ServiceHealth :=
  ⟨⟨"s2", "10.0.0.2", 81⟩, [⟨"critical"⟩]⟩

/-- Witness for C3 on a concrete two-instance list (one healthy). -/
theorem roundRobinSelection_cycle_witness :
    ∃ svc, ([svcPassing, svcCritical].filter isPassingAll).get?
        (0 % ([svcPassing, svcCritical].filter isPassingAll).length) = some svc ∧
      roundRobinSelection [svcPassing, svcCritical] 0 =
        Except.ok ⟨svc.Service.ID, svc,
          (0 + 1) % ([svcPassing, svcCritical].filter isPassingAll).length⟩ ∧
      (0 + 1) % ([svcPassing, svcCritical].filter isPassingAll).length <
        ([svcPassing, svcCritical].filter isPassingAll).length :=
  (roundRobinSelection_cycle [svcPassing, svcCritical] 0).2.1 (by decide)

/-! ### C4: weighted random selection -/

/-- C4: `weightedRandomSelection` raises the no-services-available error
exactly on an empty ranked list; deterministically returns the first candidate
when the total score is `≤ 0`; otherwise draws `rand * total` with
`rand ∈ [0,1)` and returns the candidate at which the running remainder first
drops to `≤ 0` while walking the list in order. -/
theorem weightedRandomSelection_correct (ranked : List RankedService) (rand : ℚ) :
    (weightedRandomSelection ranked rand =
        Except.error "No services available for selection" ↔ ranked = []) ∧
    (∀ first rest, ranked = first :: rest →
      ((ranked.foldl (fun sum s => sum + s.score) 0 ≤ 0 →
        weightedRandomSelection ranked rand = Except.ok ⟨first.id, first.service⟩) ∧
      (0 ≤ rand → rand < 1 → 0 < ranked.foldl (fun sum s => sum + s.score) 0 →
        ∃ j, ∃ hj : j < ranked.length,
          weightedRandomSelection ranked rand =
            Except.ok ⟨(ranked.get ⟨j, hj⟩).id, (ranked.get ⟨j, hj⟩).service⟩ ∧
          rand * ranked.foldl (fun sum s => sum + s.score) 0 ≤
            firstSum (fun s => s.score) ranked (j + 1) ∧
          ∀ k < j, firstSum (fun s => s.score) ranked (k + 1) <
            rand * ranked.foldl (fun sum s => sum + s.score) 0))) := by
  cases ranked with
  | nil =>
    refine ⟨?_, ?_⟩
    · simp [weightedRandomSelection]
    · intro first rest hcontra
      cases hcontra
  | cons first rest =>
    refine ⟨?_, ?_⟩
    · constructor
      · intro herr
        exfalso
        by_cases htot : (first :: rest).foldl (fun sum s => sum + s.score) 0 ≤ 0
        · rw [weightedRandomSelection, if_pos htot] at herr
          cases herr
        · rw [weightedRandomSelection, if_neg htot] at herr
          rcases hw : wheelLoop (fun s => s.score) (first :: rest)
              (rand * (first :: rest).foldl (fun sum s => sum + s.score) 0) with _ | s
          · rw [hw] at herr; cases herr
          · rw [hw] at herr; cases herr
      · intro hcontra
        cases hcontra
    · intro f r hfr
      injection hfr with h1 h2
      subst h1
      subst h2
      refine ⟨?_, ?_⟩
      · intro htot
        rw [weightedRandomSelection, if_pos htot]
      · intro hr0 hr1 htot
        have hsum : (first :: rest).foldl (fun sum s => sum + s.score) 0 =
            ((first :: rest).map (fun s => s.score)).sum := by
          simpa using foldl_add_eq_sum (fun s => s.score) (first :: rest) 0
        have htlt : rand * (first :: rest).foldl (fun sum s => sum + s.score) 0 <
            (first :: rest).foldl (fun sum s => sum + s.score) 0 :=
          (mul_lt_iff_lt_one_left htot).2 hr1
        have hle : rand * (first :: rest).foldl (fun sum s => sum + s.score) 0 ≤
            ((first :: rest).map (fun s => s.score)).sum := by
          rw [← hsum]; linarith
        have hsome := wheelLoop_isSome (fun s => s.score) (first :: rest)
          (rand * (first :: rest).foldl (fun sum s => sum + s.score) 0) (by simp) hle
        obtain ⟨a, ha⟩ := Option.isSome_iff_exists.mp hsome
        obtain ⟨j, hj, haj, hcov, hmin⟩ :=
          wheelLoop_spec (fun s => s.score) (first :: rest) _ a ha
        refine ⟨j, hj, ?_, ?_, ?_⟩
        · rw [weightedRandomSelection, if_neg (not_le.mpr htot), ha, haj]
        · exact hcov
        · exact hmin

/-- Sample ranked candidates. -/
def rankedA : RankedService := ⟨3, "s1", svcPassing⟩

/-- A lower-scored sample ranked candidate. -/
def rankedB : RankedService := ⟨1, "s2", svcCritical⟩

/-- Witness for C4 on a concrete two-candidate ranking with `rand = 1/2`. -/
theorem weightedRandomSelection_correct_witness :
    ∃ j, ∃ hj : j < ([rankedA, rankedB] : List RankedService).length,
      weightedRandomSelection [rankedA, rankedB] (1/2) =
        Except.ok ⟨(([rankedA, rankedB] : List RankedService).get ⟨j, hj⟩).id,
          (([rankedA, rankedB] : List RankedService).get ⟨j, hj⟩).service⟩ ∧
      (1/2 : ℚ) * ([rankedA, rankedB] : List RankedService).foldl
          (fun sum s => sum + s.score) 0 ≤
        firstSum (fun s => s.score) [rankedA, rankedB] (j + 1) ∧
      ∀ k < j, firstSum (fun s => s.score) [rankedA, rankedB] (k + 1) <
        (1/2 : ℚ) * ([rankedA, rankedB] : List RankedService).foldl
          (fun sum s => sum + s.score) 0 :=
  ((weightedRandomSelection_correct [rankedA, rankedB] (1/2)).2
    rankedA [rankedB] rfl).2 (by norm_num) (by norm_num)
    (by norm_num [rankedA, rankedB])

/-! ### C8 and C10: SRV-record selection -/

theorem qOr_zero (v : ℚ) : qOr v 0 = v := by
  unfold qOr
  by_cases h : v = 0
  · simp [h]
  · simp [h]

/-- C8: with every record's weight zero (an absent weight is coalesced to 0 by
the source's `record.weight || 0`), `weightedSrvRecordSelection` returns
exactly `roundRobinSrvSelection`; with at least one positive weight and
non-negative weights it performs the roulette-wheel draw over the weights,
counting an individual zero weight as 1 in the summation. -/
theorem weightedSrvRecordSelection_refines (records : List SrvRecord) (cursor : Nat)
    (rand : ℚ) (hne : records ≠ []) :
    ((∀ r ∈ records, r.weight = 0) →
      weightedSrvRecordSelection records cursor rand =
        roundRobinSrvSelection records cursor) ∧
    (0 ≤ rand → rand < 1 → (∀ r ∈ records, 0 ≤ r.weight) →
      (∃ r ∈ records, 0 < r.weight) →
      ∃ j, ∃ hj : j < records.length,
        weightedSrvRecordSelection records cursor rand =
          some ⟨records.get ⟨j, hj⟩, cursor⟩ ∧
        rand * records.foldl (fun sum r => sum + qOr r.weight 1) 0 ≤
          firstSum (fun r => qOr r.weight 1) records (j + 1) ∧
        ∀ k < j, firstSum (fun r => qOr r.weight 1) records (k + 1) <
          rand * records.foldl (fun sum r => sum + qOr r.weight 1) 0) := by
  have hlen : ¬ records.length = 0 := fun h0 => hne (List.length_eq_zero.mp h0)
  constructor
  · intro hz
    have hany : records.any (fun r => 0 < qOr r.weight 0) = false := by
      simp only [List.any_eq_false, decide_eq_true_eq]
      intro r hr
      rw [qOr_zero, hz r hr]
      norm_num
    unfold weightedSrvRecordSelection
    rw [dif_neg hlen, if_pos hany]
  · intro hr0 hr1 hnonneg hpositive
    have hany : records.any (fun r => 0 < qOr r.weight 0) = true := by
      obtain ⟨r, hr, hw⟩ := hpositive
      refine List.any_eq_true.mpr ⟨r, hr, ?_⟩
      rw [qOr_zero]
      exact decide_eq_true hw
    have hpos : ∀ x ∈ records.map (fun r => qOr r.weight 1), 0 < x := by
      intro x hx
      obtain ⟨r, hr, rfl⟩ := List.mem_map.mp hx
      unfold qOr
      by_cases h0 : r.weight = 0
      · simp [h0]
      · rw [if_neg h0]
        exact lt_of_le_of_ne (hnonneg r hr) (Ne.symm h0)
    have hsum : records.foldl (fun sum r => sum + qOr r.weight 1) 0 =
        (records.map (fun r => qOr r.weight 1)).sum := by
      simpa using foldl_add_eq_sum (fun r => qOr r.weight 1) records 0
    have htot : 0 < records.foldl (fun sum r => sum + qOr r.weight 1) 0 := by
      rw [hsum]
      exact List.sum_pos _ hpos (fun h => hne (List.map_eq_nil_iff.mp h))
    have htlt : rand * records.foldl (fun sum r => sum + qOr r.weight 1) 0 <
        records.foldl (fun sum r => sum + qOr r.weight 1) 0 :=
      (mul_lt_iff_lt_one_left htot).2 hr1
    have hle : rand * records.foldl (fun sum r => sum + qOr r.weight 1) 0 ≤
        (records.map (fun r => qOr r.weight 1)).sum := by
      rw [← hsum]; linarith
    have hsome := wheelLoop_isSome (fun r => qOr r.weight 1) records
      (rand * records.foldl (fun sum r => sum + qOr r.weight 1) 0) hne hle
    obtain ⟨a, ha⟩ := Option.isSome_iff_exists.mp hsome
    obtain ⟨j, hj, haj, hcov, hmin⟩ :=
      wheelLoop_spec (fun r => qOr r.weight 1) records _ a ha
    refine ⟨j, hj, ?_, hcov, hmin⟩
    unfold weightedSrvRecordSelection
    rw [dif_neg hlen, if_neg (by simp [hany]), ha, haj]

/-- C10: whenever the SRV record list is non-empty and some record has a
positive weight, `weightedSrvRecordSelection` returns `nextIndex` equal to the
input cursor unchanged; the cursor advances to `(cursor+1) % N` only on the
round-robin fallback taken when no record's weight is positive. -/
theorem weightedSrvRecordSelection_frame (records : List SrvRecord) (cursor : Nat)
    (rand : ℚ) (hne : records ≠ []) :
    ((∃ r ∈ records, 0 < r.weight) →
      ∃ sel, weightedSrvRecordSelection records cursor rand = some ⟨sel, cursor⟩) ∧
    ((∀ r ∈ records, r.weight ≤ 0) →
      ∃ sel, weightedSrvRecordSelection records cursor rand =
        some ⟨sel, (cursor + 1) % records.length⟩) := by
  have hlen : ¬ records.length = 0 := fun h0 => hne (List.length_eq_zero.mp h0)
  constructor
  · intro hpositive
    have hany : records.any (fun r => 0 < qOr r.weight 0) = true := by
      obtain ⟨r, hr, hw⟩ := hpositive
      refine List.any_eq_true.mpr ⟨r, hr, ?_⟩
      rw [qOr_zero]
      exact decide_eq_true hw
    unfold weightedSrvRecordSelection
    rw [dif_neg hlen, if_neg (by simp [hany])]
    rcases hw : wheelLoop (fun r => qOr r.weight 1) records
        (rand * records.foldl (fun sum r => sum + qOr r.weight 1) 0) with _ | r
    · exact ⟨records.get ⟨0, Nat.pos_of_ne_zero hlen⟩, rfl⟩
    · exact ⟨r, rfl⟩
  · intro hz
    have hany : records.any (fun r => 0 < qOr r.weight 0) = false := by
      simp only [List.any_eq_false, decide_eq_true_eq]
      intro r hr
      rw [qOr_zero]
      exact not_lt.mpr (hz r hr)
    unfold weightedSrvRecordSelection roundRobinSrvSelection
    rw [dif_neg hlen, if_pos hany, dif_neg hlen]
    exact ⟨_, rfl⟩

/-- A sample zero-weight SRV record. -/
def srvZero : SrvRecord := ⟨"a.node", "10.0.0.1", 8080, 1, 0⟩

/-- A second sample zero-weight SRV record. -/
def srvZeroB : SrvRecord := ⟨"b.node", "10.0.0.2", 8081, 1, 0⟩

/-- A sample SRV record with positive weight. -/
def srvFive : SrvRecord := ⟨"c.node", "10.0.0.3", 8082, 1, 5⟩

/-- Witness for C8: all-zero weights degrade to round robin, and a positive
weight triggers the roulette wheel, on concrete record lists. -/
theorem weightedSrvRecordSelection_refines_witness :
    (weightedSrvRecordSelection [srvZero, srvZeroB] 3 (1/2) =
      roundRobinSrvSelection [srvZero, srvZeroB] 3) ∧
    (∃ j, ∃ hj : j < ([srvZero, srvFive] : List SrvRecord).length,
      weightedSrvRecordSelection [srvZero, srvFive] 4 (1/2) =
        some ⟨([srvZero, srvFive] : List SrvRecord).get ⟨j, hj⟩, 4⟩ ∧
      (1/2 : ℚ) * ([srvZero, srvFive] : List SrvRecord).foldl
          (fun sum r => sum + qOr r.weight 1) 0 ≤
        firstSum (fun r => qOr r.weight 1) [srvZero, srvFive] (j + 1) ∧
      ∀ k < j, firstSum (fun r => qOr r.weight 1) [srvZero, srvFive] (k + 1) <
        (1/2 : ℚ) * ([srvZero, srvFive] : List SrvRecord).foldl
          (fun sum r => sum + qOr r.weight 1) 0) :=
  ⟨(weightedSrvRecordSelection_refines [srvZero, srvZeroB] 3 (1/2)
      (by decide)).1 (by decide),
    (weightedSrvRecordSelection_refines [srvZero, srvFive] 4 (1/2)
      (by decide)).2 (by norm_num) (by norm_num)
      (by decide) (by decide)⟩

/-- Witness for C10 on concrete record lists: a positive weight leaves the
cursor unchanged, all-non-positive weights advance it. -/
theorem weightedSrvRecordSelection_frame_witness :
    (∃ sel, weightedSrvRecordSelection [srvFive, srvZero] 7 (1/2) = some ⟨sel, 7⟩) ∧
    (∃ sel, weightedSrvRecordSelection [srvZero, srvZeroB] 7 (1/2) =
      some ⟨sel, (7 + 1) % ([srvZero, srvZeroB] : List SrvRecord).length⟩) :=
  ⟨(weightedSrvRecordSelection_frame [srvFive, srvZero] 7 (1/2) (by decide)).1
      (by decide),
    (weightedSrvRecordSelection_frame [srvZero, srvZeroB] 7 (1/2) (by decide)).2
      (by decide)⟩

/-! ## MetricsStore: the `MetricsManager` -/

/-- `getConnectionKey`: the store key `{prefix}:connections:{serviceId}`. -/
def connectionKey (cachePfx serviceId : String) : String :=
  cachePfx ++ ":connections:" ++ serviceId

theorem intOr_zero (v : Int) : intOr v 0 = v := by
  unfold intOr
  by_cases h : v = 0
  · simp [h]
  · simp [h]

/-! ### Association-list map lemmas -/

theorem mapGet_mapSet_self (m : List (String × ServiceMetrics)) (k : String)
    (v : ServiceMetrics) : mapGet (mapSet m k v) k = some v := by
  induction m with
  | nil => simp [mapSet, mapGet, List.find?]
  | cons p rest ih =>
    obtain ⟨k', v'⟩ := p
    by_cases h : k' = k
    · subst h
      simp [mapSet, mapGet, List.find?]
    · simp only [mapSet, if_neg h]
      simp only [mapGet, List.find?] at ih ⊢
      rw [decide_eq_false h]
      exact ih

theorem mapGet_mapSet_ne (m : List (String × ServiceMetrics)) (k k' : String)
    (v : ServiceMetrics) (h : k' ≠ k) : mapGet (mapSet m k v) k' = mapGet m k' := by
  induction m with
  | nil => simp [mapSet, mapGet, List.find?, Ne.symm h]
  | cons p rest ih =>
    obtain ⟨k0, v0⟩ := p
    by_cases h0 : k0 = k
    · subst h0
      simp only [mapSet, if_pos rfl]
      simp only [mapGet, List.find?]
      rw [decide_eq_false (Ne.symm h)]
    · simp only [mapSet, if_neg h0]
      simp only [mapGet, List.find?] at ih ⊢
      by_cases hk0 : k0 = k'
      · subst hk0
        simp
      · rw [decide_eq_false hk0]
        exact ih

namespace MetricsManager

/-- The value `getServicesMetrics` computes for one candidate from its two
batch slots (stored metrics blob and stored connection blob); `parse _ = none`
models a JSON.parse throw, which the per-item catch converts to the defaults
for this item. -/
def metricsItemValue (defaults : ServiceMetrics)
    (parse : String → Option ServiceMetrics) (mRes cRes : Option String) :
    ServiceMetrics :=
  match jsStr mRes with
  | some str =>
    match parse str with
    | none => defaults
    | some m =>
      match jsStr cRes with
      | some cstr =>
        match parse cstr with
        | none => defaults
        | some cd => { m with activeConnections := intOr cd.activeConnections 0 }
      | none => m
  | none =>
    match jsStr cRes with
    | some cstr =>
      match parse cstr with
      | none => defaults
      | some cd => { defaults with activeConnections := intOr cd.activeConnections 0 }
    | none => defaults

/-- The `services.forEach((service, index) => ...)` loop of
`getServicesMetrics`: slot `2*index` holds the metrics blob, slot `2*index+1`
the connection blob. -/
def buildMetricsMap (defaults : ServiceMetrics)
    (parse : String → Option ServiceMetrics) (results : List (Option String)) :
    List ServiceHealth → Nat → List (String × ServiceMetrics) →
      List (String × ServiceMetrics)
  | [], _, acc => acc
  | s :: rest, i, acc =>
    buildMetricsMap defaults parse results rest (i + 1)
      (mapSet acc s.Service.ID
        (metricsItemValue defaults parse (results.getD (2 * i) none)
          (results.getD (2 * i + 1) none)))

/-- `MetricsManager.getServicesMetrics` (part of the spec-target variant): one
batched store round trip for the candidate list; an `error` (rejected batch)
or `none` (null result array) yields the defaults for every candidate. -/
def getServicesMetrics (defaults : ServiceMetrics)
    (parse : String → Option ServiceMetrics) (services : List ServiceHealth)
    (execResult : Except String (Option (List (Option String)))) :
    List (String × ServiceMetrics) :=
  match execResult with
  | Except.error _ =>
    services.foldl (fun acc s => mapSet acc s.Service.ID defaults) []
  | Except.ok none =>
    services.foldl (fun acc s => mapSet acc s.Service.ID defaults) []
  | Except.ok (some results) => buildMetricsMap defaults parse results services 0 []

/-- `MetricsManager.incrementConnections` as a store transformer: read the
record at the connection key (or synthesize from the defaults), bump
`activeConnections`, and write back only when the cache is enabled. -/
def incrementConnections (cachePfx : String) (defaults : ServiceMetrics)
    (cacheEnabled : Bool) (store : String → Option ServiceMetrics)
    (serviceId : String) : String → Option ServiceMetrics :=
  match store (connectionKey cachePfx serviceId) with
  | some m =>
    if cacheEnabled then
      fun k => if k = connectionKey cachePfx serviceId then
        some { m with activeConnections := intOr m.activeConnections 0 + 1 }
      else store k
    else store
  | none =>
    if cacheEnabled then
      fun k => if k = connectionKey cachePfx serviceId then
        some { defaults with activeConnections := 1 }
      else store k
    else store

/-- `MetricsManager.decrementConnections` as a store transformer: the new
count is `max 0 ((activeConnections || 1) - 1)`, and a missing record is
written back with a count of 0. -/
def decrementConnections (cachePfx : String) (defaults : ServiceMetrics)
    (cacheEnabled : Bool) (store : String → Option ServiceMetrics)
    (serviceId : String) : String → Option ServiceMetrics :=
  match store (connectionKey cachePfx serviceId) with
  | some m =>
    if cacheEnabled then
      fun k => if k = connectionKey cachePfx serviceId then
        some { m with activeConnections := max 0 (intOr m.activeConnections 1 - 1) }
      else store k
    else store
  | none =>
    if cacheEnabled then
      fun k => if k = connectionKey cachePfx serviceId then
        some { defaults with activeConnections := 0 }
      else store k
    else store

end MetricsManager

theorem mapGet_foldl_defaults (defaults : ServiceMetrics) :
    ∀ (l : List ServiceHealth) (acc : List (String × ServiceMetrics)) (k : String),
      (mapGet acc k = some defaults ∨ k ∈ l.map (fun s => s.Service.ID)) →
      mapGet (l.foldl (fun acc s => mapSet acc s.Service.ID defaults) acc) k =
        some defaults := by
  intro l
  induction l with
  | nil =>
    intro acc k h
    rcases h with h | h
    · exact h
    · simp at h
  | cons s rest ih =>
    intro acc k h
    rw [List.foldl_cons]
    apply ih
    by_cases hk : k = s.Service.ID
    · subst hk
      left
      exact mapGet_mapSet_self acc _ defaults
    · rcases h with h | h
      · left
        rw [mapGet_mapSet_ne acc s.Service.ID k defaults hk]
        exact h
      · simp only [List.map_cons, List.mem_cons] at h
        rcases h with h | h
        · exact absurd h hk
        · right
          simpa using h

theorem mapGet_buildMetricsMap_notmem (defaults : ServiceMetrics)
    (parse : String → Option ServiceMetrics) (results : List (Option String)) :
    ∀ (l : List ServiceHealth) (i : Nat) (acc : List (String × ServiceMetrics))
      (k : String), k ∉ l.map (fun s => s.Service.ID) →
      mapGet (MetricsManager.buildMetricsMap defaults parse results l i acc) k =
        mapGet acc k := by
  intro l
  induction l with
  | nil => intro i acc k _; rfl
  | cons s rest ih =>
    intro i acc k h
    simp only [List.map_cons, List.mem_cons, not_or] at h
    rw [MetricsManager.buildMetricsMap, ih (i + 1) _ k h.2,
      mapGet_mapSet_ne acc s.Service.ID k _ h.1]

theorem mapGet_buildMetricsMap_isSome (defaults : ServiceMetrics)
    (parse : String → Option ServiceMetrics) (results : List (Option String)) :
    ∀ (l : List ServiceHealth) (i : Nat) (acc : List (String × ServiceMetrics))
      (k : String),
      (k ∈ l.map (fun s => s.Service.ID) ∨ (mapGet acc k).isSome = true) →
      (mapGet (MetricsManager.buildMetricsMap defaults parse results l i acc) k).isSome
        = true := by
  intro l
  induction l with
  | nil =>
    intro i acc k h
    rcases h with h | h
    · simp at h
    · exact h
  | cons s rest ih =>
    intro i acc k h
    rw [MetricsManager.buildMetricsMap]
    by_cases hk : k = s.Service.ID
    · subst hk
      apply ih
      right
      rw [mapGet_mapSet_self]
      rfl
    · rcases h with h | h
      · simp only [List.map_cons, List.mem_cons] at h
        rcases h with h | h
        · exact absurd h hk
        · exact ih (i + 1) _ k (Or.inl (by simpa using h))
      · apply ih
        right
        rw [mapGet_mapSet_ne acc s.Service.ID k _ hk]
        exact h

theorem mapGet_buildMetricsMap_get (defaults : ServiceMetrics)
    (parse : String → Option ServiceMetrics) (results : List (Option String)) :
    ∀ (l : List ServiceHealth) (i : Nat) (acc : List (String × ServiceMetrics)),
      (l.map (fun s => s.Service.ID)).Nodup →
      ∀ j s, l.get? j = some s →
        mapGet (MetricsManager.buildMetricsMap defaults parse results l i acc)
            s.Service.ID =
          some (MetricsManager.metricsItemValue defaults parse
            (results.getD (2 * (i + j)) none) (results.getD (2 * (i + j) + 1) none)) := by
  intro l
  induction l with
  | nil => intro i acc _ j s hj; simp at hj
  | cons s0 rest ih =>
    intro i acc hnd j s hj
    have hnd' : s0.Service.ID ∉ rest.map (fun s => s.Service.ID) ∧
        (rest.map (fun s => s.Service.ID)).Nodup := by
      rw [List.map_cons, List.nodup_cons] at hnd
      exact hnd
    rw [MetricsManager.buildMetricsMap]
    cases j with
    | zero =>
      have hs : s0 = s := by simpa using hj
      subst hs
      rw [mapGet_buildMetricsMap_notmem defaults parse results rest (i + 1) _ _ hnd'.1,
        mapGet_mapSet_self]
      have harith : 2 * (i + 0) = 2 * i := by ring
      rw [harith]
    | succ j' =>
      have hj' : rest.get? j' = some s := by simpa using hj
      have harith : 2 * (i + (j' + 1)) = 2 * ((i + 1) + j') := by ring
      rw [harith]
      exact ih (i + 1) _ hnd'.2 j' s hj'

/-- C5: `getServicesMetrics` never throws and is fail-soft: every candidate
passed in has an entry in the returned map; a total batch failure (rejected
batch or null result array) yields the configured defaults for every
candidate; and on a successful batch each candidate's entry is computed from
its own two result slots alone, so an individual decode failure defaults that
candidate only and leaves every other candidate's entry intact. -/
theorem getServicesMetrics_failsoft (defaults : ServiceMetrics)
    (parse : String → Option ServiceMetrics) (services : List ServiceHealth)
    (execResult : Except String (Option (List (Option String)))) :
    (∀ s ∈ services,
      (mapGet (MetricsManager.getServicesMetrics defaults parse services execResult)
        s.Service.ID).isSome = true) ∧
    (∀ e, execResult = Except.error e →
      ∀ s ∈ services,
        mapGet (MetricsManager.getServicesMetrics defaults parse services execResult)
          s.Service.ID = some defaults) ∧
    (execResult = Except.ok none →
      ∀ s ∈ services,
        mapGet (MetricsManager.getServicesMetrics defaults parse services execResult)
          s.Service.ID = some defaults) ∧
    (∀ results, execResult = Except.ok (some results) →
      (services.map (fun s => s.Service.ID)).Nodup →
      ∀ j s, services.get? j = some s →
        mapGet (MetricsManager.getServicesMetrics defaults parse services execResult)
            s.Service.ID =
          some (MetricsManager.metricsItemValue defaults parse
            (results.getD (2 * j) none) (results.getD (2 * j + 1) none))) := by
  refine ⟨?_, ?_, ?_, ?_⟩
  · intro s hs
    match execResult with
    | Except.error e =>
      rw [MetricsManager.getServicesMetrics,
        mapGet_foldl_defaults defaults services []
          s.Service.ID (Or.inr (List.mem_map_of_mem _ hs))]
      rfl
    | Except.ok none =>
      rw [MetricsManager.getServicesMetrics,
        mapGet_foldl_defaults defaults services []
          s.Service.ID (Or.inr (List.mem_map_of_mem _ hs))]
      rfl
    | Except.ok (some results) =>
      rw [MetricsManager.getServicesMetrics]
      exact mapGet_buildMetricsMap_isSome defaults parse results services 0 []
        s.Service.ID (Or.inl (List.mem_map_of_mem _ hs))
  · intro e he s hs
    subst he
    rw [MetricsManager.getServicesMetrics]
    exact mapGet_foldl_defaults defaults services [] s.Service.ID
      (Or.inr (List.mem_map_of_mem _ hs))
  · intro he s hs
    subst he
    rw [MetricsManager.getServicesMetrics]
    exact mapGet_foldl_defaults defaults services [] s.Service.ID
      (Or.inr (List.mem_map_of_mem _ hs))
  · intro results he hnd j s hj
    subst he
    rw [MetricsManager.getServicesMetrics]
    have := mapGet_buildMetricsMap_get defaults parse results services 0 [] hnd j s hj
    simpa using this

/-- Witness for C5 on two concrete candidates where the second candidate's
stored blob fails to decode: the first candidate keeps its decoded entry, the
second gets the defaults. -/
theorem getServicesMetrics_failsoft_witness :
    mapGet (MetricsManager.getServicesMetrics DEFAULT_METRICS
        (fun str => if str = "good" then some DEFAULT_METRICS else none)
        [svcPassing, svcCritical]
        (Except.ok (some [some "good", none, some "bad", none])))
      svcCritical.Service.ID =
    some (MetricsManager.metricsItemValue DEFAULT_METRICS
      (fun str => if str = "good" then some DEFAULT_METRICS else none)
      (([some "good", none, some "bad", none] : List (Option String)).getD (2 * 1) none)
      (([some "good", none, some "bad", none] : List (Option String)).getD (2 * 1 + 1) none)) :=
  (getServicesMetrics_failsoft DEFAULT_METRICS
    (fun str => if str = "good" then some DEFAULT_METRICS else none)
    [svcPassing, svcCritical]
    (Except.ok (some [some "good", none, some "bad", none]))).2.2.2
    [some "good", none, some "bad", none] rfl (by decide) 1 svcCritical rfl

/-- C7: `incrementConnections` followed by `decrementConnections` on the same
id restores that id's `activeConnections` to its prior value (0 when no record
previously existed), for any starting store whose record at that key is
non-negative; and a decrement with writes enabled never leaves a negative
`activeConnections` at the key. -/
theorem connections_inc_dec (cachePfx : String) (defaults : ServiceMetrics)
    (cacheEnabled : Bool) (store : String → Option ServiceMetrics) (serviceId : String)
    (hpre : ∀ m, store (connectionKey cachePfx serviceId) = some m →
      0 ≤ m.activeConnections) :
    (((MetricsManager.decrementConnections cachePfx defaults cacheEnabled
          (MetricsManager.incrementConnections cachePfx defaults cacheEnabled
            store serviceId) serviceId)
          (connectionKey cachePfx serviceId)).map
        (fun m => m.activeConnections)).getD 0 =
      ((store (connectionKey cachePfx serviceId)).map
        (fun m => m.activeConnections)).getD 0 ∧
    (cacheEnabled = true → ∀ m,
      (MetricsManager.decrementConnections cachePfx defaults cacheEnabled
          store serviceId) (connectionKey cachePfx serviceId) = some m →
      0 ≤ m.activeConnections) := by
  cases cacheEnabled with
  | false =>
    constructor
    · rcases hst : store (connectionKey cachePfx serviceId) with _ | m
      · rw [MetricsManager.incrementConnections, hst]
        simp only [if_neg (by simp : ¬ false = true)]
        rcases hst2 : store (connectionKey cachePfx serviceId) with _ | m2
        · rw [MetricsManager.decrementConnections, hst2]
          simp [hst2]
        · rw [hst] at hst2; cases hst2
      · rw [MetricsManager.incrementConnections, hst]
        simp only [if_neg (by simp : ¬ false = true)]
        rw [MetricsManager.decrementConnections, hst]
        simp [hst]
    · intro habs; cases habs
  | true =>
    rcases hst : store (connectionKey cachePfx serviceId) with _ | m
    · constructor
      · rw [MetricsManager.incrementConnections, hst]
        simp only [if_pos rfl]
        rw [MetricsManager.decrementConnections]
        simp only [if_pos rfl]
        simp [hst]
        decide
      · intro _ m2 hm2
        rw [MetricsManager.decrementConnections, hst] at hm2
        simp only [if_pos rfl] at hm2
        simp at hm2
        rw [← hm2]
    · have hc := hpre m hst
      constructor
      · rw [MetricsManager.incrementConnections, hst]
        simp only [if_pos rfl]
        rw [MetricsManager.decrementConnections]
        simp only [if_pos rfl]
        simp [hst, intOr_zero]
        rw [intOr, if_neg (by omega : ¬ m.activeConnections + 1 = 0)]
        omega
      · intro _ m2 hm2
        rw [MetricsManager.decrementConnections, hst] at hm2
        simp only [if_pos rfl] at hm2
        simp at hm2
        rw [← hm2]
        simp

/-- Witness for C7 with an initially empty store and writes enabled. -/
theorem connections_inc_dec_witness :
    (((MetricsManager.decrementConnections "p" DEFAULT_METRICS true
          (MetricsManager.incrementConnections "p" DEFAULT_METRICS true
            (fun _ => none) "svc") "svc") (connectionKey "p" "svc")).map
        (fun m => m.activeConnections)).getD 0 =
      (((fun _ => (none : Option ServiceMetrics)) (connectionKey "p" "svc")).map
        (fun m => m.activeConnections)).getD 0 ∧
    (true = true → ∀ m,
      (MetricsManager.decrementConnections "p" DEFAULT_METRICS true
          (fun _ => none) "svc") (connectionKey "p" "svc") = some m →
      0 ≤ m.activeConnections) :=
  connections_inc_dec "p" DEFAULT_METRICS true (fun _ => none) "svc"
    (by intro m h; simp at h)

/-! ## Resolver (orchestrator): `selectOptimalService` of the
DNS+health+metrics reconciliation variant -/

/-- An `{ip, port}` endpoint of the public result. -/
structure Endpoint where
  ip : String
  port : Int
deriving DecidableEq

/-- The public `OptimalServiceResult`. -/
structure OptimalServiceResult where
  selected : Option Endpoint
  services : List Endpoint
deriving DecidableEq

/-- Mutable state touched by one call: the instance's round-robin cursor and
the external key-value store. -/
structure ResolverState where
  currentIndex : Nat
  store : String → Option ServiceMetrics

/-- One call's view of the external world and configuration: the settled
results of the two concurrent fetches (either may be a rejection), the batched
metrics round trip, decode functions for stored bytes, the `Math.random()`
draw, the clock, and the cache configuration. -/
structure ResolverEnv where
  healthChecks : Except String (List ServiceHealth)
  dnsRecords : Except String (List SrvRecord)
  metricsExec : Except String (Option (List (Option String)))
  parseMetrics : String → Option ServiceMetrics
  parseConnInt : String → Int
  rand : ℚ
  now : Int
  cacheEnabled : Bool
  updateFails : Bool
  defaults : ServiceMetrics
  weights : WeightConfig
  cachePfx : String

/-- The `dnsWeights` JS `Map` keyed by `record.ip`: construction from a list
keeps the last entry for a duplicate key, so lookup searches from the end. -/
def dnsLookup (records : List SrvRecord) (ip : String) : Option SrvRecord :=
  records.reverse.find? (fun r => r.ip = ip)

/-- Stable insertion used to model the ES2019 stable `Array.sort` by ascending
priority: under the `foldr`-driven insertion sort, placing `x` (the earlier
input element) before the first element whose priority is `≥ x.priority` keeps
equal-priority records in input order. -/
def insertByPriority (x : SrvRecord) : List SrvRecord → List SrvRecord
  | [] => [x]
  | y :: ys =>
    if x.priority ≤ y.priority then x :: y :: ys else y :: insertByPriority x ys

/-- `sortByPriority`: stable ascending sort on `(priority || 0)` (priority is
total in the model, so the coalescing is the identity). -/
def sortByPriority (records : List SrvRecord) : List SrvRecord :=
  records.foldr insertByPriority []

/-- `highestPriorityRecords`: the subset of the sorted records sharing the
first sorted record's priority; empty when there are no records (matching the
comparison of `sortedByPriority[0]?.priority` against `undefined`). -/
def topPriorityRecords (records : List SrvRecord) : List SrvRecord :=
  match (sortByPriority records).head? with
  | none => []
  | some r0 => (sortByPriority records).filter (fun r => r.priority = r0.priority)

/-- `Math.max(...)` over a list (call sites guarantee non-emptiness). -/
def listMax : List ℚ → ℚ
  | [] => 0
  | x :: xs => xs.foldl max x

/-- `dnsInfo?.port || fallback` (a DNS port of 0 is falsy and falls back). -/
def portOr (rec : Option SrvRecord) (fallback : Int) : Int :=
  match rec with
  | none => fallback
  | some r => intOr r.port fallback

namespace ConsulResolver

/-- The resolver's `selectWeightedSrvRecord`: the all-zero-weight fallback is
`records[this.currentIndex++ % records.length]` — a post-increment without a
modulo on the stored cursor. -/
def selectWeightedSrvRecord (records : List SrvRecord) (currentIndex : Nat)
    (rand : ℚ) : Option SrvRecord × Nat :=
  if h : records.length = 0 then (none, currentIndex)
  else
    if records.any (fun r => 0 < qOr r.weight 0) = false then
      (some (records.get ⟨currentIndex % records.length,
        Nat.mod_lt _ (Nat.pos_of_ne_zero h)⟩), currentIndex + 1)
    else
      match wheelLoop (fun r => qOr r.weight 1) records
          (rand * records.foldl (fun sum r => sum + qOr r.weight 1) 0) with
      | some r => (some r, currentIndex)
      | none => (some (records.get ⟨0, Nat.pos_of_ne_zero h⟩), currentIndex)

/-- `selectFromSrvRecords`: dispatch on the algorithm over raw SRV records,
returning the selected record (if any) and the updated cursor. -/
def selectFromSrvRecords (records : List SrvRecord) (alg : SelectionAlgorithm)
    (currentIndex : Nat) (rand : ℚ) : Option SrvRecord × Nat :=
  if h : records.length = 0 then (none, currentIndex)
  else
    match alg with
    | SelectionAlgorithm.RoundRobin =>
      (some (records.get ⟨currentIndex % records.length,
        Nat.mod_lt _ (Nat.pos_of_ne_zero h)⟩), (currentIndex + 1) % records.length)
    | SelectionAlgorithm.WeightedRoundRobin =>
      selectWeightedSrvRecord records currentIndex rand
    | SelectionAlgorithm.LeastConnection =>
      (some (records.get ⟨currentIndex % records.length,
        Nat.mod_lt _ (Nat.pos_of_ne_zero h)⟩), (currentIndex + 1) % records.length)

/-- The resolver's private stateful `roundRobinSelection` (reads
`this.currentIndex % N` and stores back `(this.currentIndex + 1) % N`). -/
def roundRobinSelection (services : List ServiceHealth) (currentIndex : Nat) :
    Except String (SelectedService × Nat) :=
  if h : (services.filter isPassingAll).length = 0 then
    Except.error "No healthy services available"
  else
    Except.ok
      (⟨((services.filter isPassingAll).get
            ⟨currentIndex % (services.filter isPassingAll).length,
              Nat.mod_lt _ (Nat.pos_of_ne_zero h)⟩).Service.ID,
          (services.filter isPassingAll).get
            ⟨currentIndex % (services.filter isPassingAll).length,
              Nat.mod_lt _ (Nat.pos_of_ne_zero h)⟩⟩,
        (currentIndex + 1) % (services.filter isPassingAll).length)

/-- One item of the resolver's own `getServicesMetrics` (this variant decodes
the connection slot with `parseInt` — abstracted as a total numeric decode —
and writes 0 when the slot is absent; a metrics-blob parse throw defaults the
whole item). -/
def metricsItemValue (defaults : ServiceMetrics)
    (parse : String → Option ServiceMetrics) (parseConnInt : String → Int)
    (mRes cRes : Option String) : ServiceMetrics :=
  match jsStr mRes with
  | some str =>
    match parse str with
    | none => defaults
    | some m =>
      { m with activeConnections :=
          (match jsStr cRes with
            | some cstr => parseConnInt cstr
            | none => 0) }
  | none =>
    { defaults with activeConnections :=
        (match jsStr cRes with
          | some cstr => parseConnInt cstr
          | none => 0) }

/-- The indexed `forEach` loop of the resolver's `getServicesMetrics`. -/
def buildMetricsMap (defaults : ServiceMetrics)
    (parse : String → Option ServiceMetrics) (parseConnInt : String → Int)
    (results : List (Option String)) :
    List ServiceHealth → Nat → List (String × ServiceMetrics) →
      List (String × ServiceMetrics)
  | [], _, acc => acc
  | s :: rest, i, acc =>
    buildMetricsMap defaults parse parseConnInt results rest (i + 1)
      (mapSet acc s.Service.ID (metricsItemValue defaults parse parseConnInt
        (results.getD (2 * i) none) (results.getD (2 * i + 1) none)))

/-- The resolver's `getServicesMetrics`: defaults for every candidate on a
rejected or null batch, per-item decoding otherwise. -/
def getServicesMetrics (defaults : ServiceMetrics)
    (parse : String → Option ServiceMetrics) (parseConnInt : String → Int)
    (services : List ServiceHealth)
    (execResult : Except String (Option (List (Option String)))) :
    List (String × ServiceMetrics) :=
  match execResult with
  | Except.error _ =>
    services.foldl (fun acc s => mapSet acc s.Service.ID defaults) []
  | Except.ok none =>
    services.foldl (fun acc s => mapSet acc s.Service.ID defaults) []
  | Except.ok (some results) =>
    buildMetricsMap defaults parse parseConnInt results services 0 []

/-- The composite score `rankServices` computes for one candidate. -/
def rankScore (weights : WeightConfig) (now : Int) (service : ServiceHealth)
    (m : ServiceMetrics) : ℚ :=
  calculateHealthScore service * weights.health +
  normalizeScore m.responseTime 500 true * weights.responseTime +
  normalizeScore m.errorRate 100 true * weights.errorRate +
  calculateResourceScore m * weights.resources +
  normalizeScore (m.activeConnections : ℚ) 1000 true * weights.connections +
  calculateDistributionScore now m.lastSelectedTime * weights.distribution

/-- Stable descending insertion modelling the JS stable sort by score. -/
def insertByScoreDesc (x : RankedService) : List RankedService → List RankedService
  | [] => [x]
  | y :: ys =>
    if x.score ≥ y.score then x :: y :: ys else y :: insertByScoreDesc x ys

/-- Stable descending sort by score (ties keep input order). -/
def sortByScoreDesc (l : List RankedService) : List RankedService :=
  l.foldr insertByScoreDesc []

/-- The resolver's `rankServices`: a missing metrics entry throws; otherwise
each candidate is scored and the list sorted descending by score. -/
def rankServices (weights : WeightConfig) (now : Int)
    (services : List ServiceHealth) (metrics : List (String × ServiceMetrics)) :
    Except String (List RankedService) :=
  (services.mapM (fun (service : ServiceHealth) =>
    match mapGet metrics service.Service.ID with
    | none => Except.error ("No metrics found for service " ++ service.Service.ID)
    | some m => Except.ok
        (⟨rankScore weights now service m, service.Service.ID, service⟩ :
          RankedService))).map sortByScoreDesc

/-- The resolver's `updateSelectionMetrics`: read-or-default at the connection
key, stamp `lastSelectedTime := now`, write back when the cache is enabled;
its internal try/catch swallows store failures (`updateFails`), leaving the
store unchanged. -/
def updateSelectionMetrics (env : ResolverEnv) (st : ResolverState)
    (serviceId : String) : ResolverState :=
  if env.updateFails then st
  else if env.cacheEnabled then
    { st with store := fun k =>
        if k = connectionKey env.cachePfx serviceId then
          some { ((st.store (connectionKey env.cachePfx serviceId)).getD env.defaults)
                  with lastSelectedTime := some env.now }
        else st.store k }
  else st

/-- The SRV-only fallback block of `selectOptimalService` (taken when the
health list is empty, or when no health instance matches a DNS ip): select
from the top-priority records, record the selection timestamp keyed by the
record's name, and return the sorted records as the service list. -/
def srvFallback (env : ResolverEnv) (alg : SelectionAlgorithm) (st : ResolverState)
    (sorted highPriority : List SrvRecord) :
    Except String OptimalServiceResult × ResolverState :=
  match selectFromSrvRecords highPriority alg st.currentIndex env.rand with
  | (none, idx) =>
    (Except.ok { selected := none, services := [] }, { st with currentIndex := idx })
  | (some sel, idx) =>
    (Except.ok
      { selected := some ⟨sel.ip, sel.port⟩
        services := sorted.map (fun r => ⟨r.ip, r.port⟩) },
      updateSelectionMetrics env { st with currentIndex := idx } sel.name)

/-- The main branch of `selectOptimalService` once health instances match DNS
ips: narrow to the top-priority matches (widening back when that empties),
batch-fetch metrics for the target set, dispatch by algorithm, stamp the
winner's selection metrics, and build `{selected, services}` with
DNS-preferred ports. -/
def selectMatched (env : ResolverEnv) (alg : SelectionAlgorithm) (st : ResolverState)
    (healthChecks : List ServiceHealth) (dnsRecords : List SrvRecord) :
    Except String OptimalServiceResult × ResolverState :=
  let matched := healthChecks.filter
    (fun c => (dnsLookup dnsRecords c.Service.Address).isSome)
  let highPriorityIPs := (topPriorityRecords dnsRecords).map (fun r => r.ip)
  let highPriorityHealthChecks := matched.filter
    (fun c => highPriorityIPs.contains c.Service.Address)
  let target := if highPriorityHealthChecks = [] then matched
    else highPriorityHealthChecks
  let maxDNSWeight := listMax (dnsRecords.map (fun r => qOr r.weight 1))
  let metrics := getServicesMetrics env.defaults env.parseMetrics env.parseConnInt
    target env.metricsExec
  let dispatched : Except String (SelectedService × Nat) :=
    match alg with
    | SelectionAlgorithm.RoundRobin => roundRobinSelection target st.currentIndex
    | SelectionAlgorithm.LeastConnection =>
      match leastConnectionSelection env.defaults target metrics with
      | Except.error e => Except.error e
      | Except.ok sel => Except.ok (sel, st.currentIndex)
    | SelectionAlgorithm.WeightedRoundRobin =>
      match rankServices env.weights env.now target metrics with
      | Except.error e => Except.error e
      | Except.ok ranked =>
        match weightedRandomSelection
            (ranked.map (fun rk =>
              match dnsLookup dnsRecords rk.service.Service.Address with
              | some dnsInfo =>
                { rk with score := rk.score * (1 + dnsInfo.weight / maxDNSWeight) }
              | none => rk)) env.rand with
        | Except.error e => Except.error e
        | Except.ok sel => Except.ok (sel, st.currentIndex)
  match dispatched with
  | Except.error e => (Except.error e, st)
  | Except.ok (sel, idx) =>
    (Except.ok
      { selected := some ⟨sel.service.Service.Address,
          portOr (dnsLookup dnsRecords sel.service.Service.Address)
            sel.service.Service.Port⟩
        services := matched.map (fun c =>
          ⟨c.Service.Address,
            portOr (dnsLookup dnsRecords c.Service.Address) c.Service.Port⟩) },
      updateSelectionMetrics env { st with currentIndex := idx } sel.id)

/-- The body of `selectOptimalService` after both concurrent fetches settled
successfully: the two emptiness guards, the matched-set test, and the
dispatch. -/
def selectBodyLists (env : ResolverEnv) (alg : SelectionAlgorithm)
    (st : ResolverState) (healthChecks : List ServiceHealth)
    (dnsRecords : List SrvRecord) :
    Except String OptimalServiceResult × ResolverState :=
  if healthChecks = [] ∧ dnsRecords = [] then
    (Except.ok { selected := none, services := [] }, st)
  else if healthChecks = [] then
    srvFallback env alg st (sortByPriority dnsRecords) (topPriorityRecords dnsRecords)
  else if healthChecks.filter
      (fun c => (dnsLookup dnsRecords c.Service.Address).isSome) = [] then
    srvFallback env alg st (sortByPriority dnsRecords) (topPriorityRecords dnsRecords)
  else selectMatched env alg st healthChecks dnsRecords

/-- The try-block body of `selectOptimalService`: `Promise.all` of the two
fetches (either rejection aborts the body), then the pipeline. -/
def selectBody (env : ResolverEnv) (alg : SelectionAlgorithm) (st : ResolverState) :
    Except String OptimalServiceResult × ResolverState :=
  match env.healthChecks with
  | Except.error e => (Except.error e, st)
  | Except.ok healthChecks =>
    match env.dnsRecords with
    | Except.error e => (Except.error e, st)
    | Except.ok dnsRecords => selectBodyLists env alg st healthChecks dnsRecords

/-- `selectOptimalService`: the whole body runs inside a try/catch whose catch
converts any raised error into `{selected: null, services: []}`. -/
def selectOptimalService (env : ResolverEnv) (alg : SelectionAlgorithm)
    (st : ResolverState) : OptimalServiceResult × ResolverState :=
  match selectBody env alg st with
  | (Except.ok r, st2) => (r, st2)
  | (Except.error _, st2) => ({ selected := none, services := [] }, st2)

end ConsulResolver

/-! ### Lemmas on sorting and SRV fallback -/

theorem insertByPriority_length (x : SrvRecord) (l : List SrvRecord) :
    (insertByPriority x l).length = l.length + 1 := by
  induction l with
  | nil => rfl
  | cons y ys ih =>
    rw [insertByPriority]
    by_cases h : x.priority ≤ y.priority
    · simp [h]
    · simp only [if_neg h, List.length_cons, ih]

theorem sortByPriority_length (records : List SrvRecord) :
    (sortByPriority records).length = records.length := by
  induction records with
  | nil => rfl
  | cons r rest ih =>
    show (insertByPriority r (sortByPriority rest)).length = rest.length + 1
    rw [insertByPriority_length, ih]

theorem topPriorityRecords_ne_nil (records : List SrvRecord) (h : records ≠ []) :
    topPriorityRecords records ≠ [] := by
  have hlen : (sortByPriority records).length = records.length :=
    sortByPriority_length records
  unfold topPriorityRecords
  rcases hs : sortByPriority records with _ | ⟨r0, rest⟩
  · exfalso
    rw [hs] at hlen
    exact h (List.length_eq_zero.mp hlen.symm)
  · simp [List.filter_cons]

theorem selectFromSrvRecords_isSome (records : List SrvRecord)
    (alg : SelectionAlgorithm) (idx : Nat) (rand : ℚ) (h : records ≠ []) :
    ∃ sel i2,
      ConsulResolver.selectFromSrvRecords records alg idx rand = (some sel, i2) := by
  have hlen : ¬ records.length = 0 := fun h0 => h (List.length_eq_zero.mp h0)
  unfold ConsulResolver.selectFromSrvRecords
  rw [dif_neg hlen]
  cases alg with
  | RoundRobin => exact ⟨_, _, rfl⟩
  | LeastConnection => exact ⟨_, _, rfl⟩
  | WeightedRoundRobin =>
    unfold ConsulResolver.selectWeightedSrvRecord
    rw [dif_neg hlen]
    by_cases hany : records.any (fun r => 0 < qOr r.weight 0) = false
    · rw [if_pos hany]
      exact ⟨_, _, rfl⟩
    · rw [if_neg hany]
      rcases hw : wheelLoop (fun r => qOr r.weight 1) records
          (rand * records.foldl (fun sum r => sum + qOr r.weight 1) 0) with _ | r
      · exact ⟨_, _, rfl⟩
      · exact ⟨_, _, rfl⟩

/-- C1: for every behaviour of the health provider, DNS provider and store
(including rejections anywhere in the pipeline), every algorithm and every
starting state, `selectOptimalService` hands its caller a plain result: the
body's value when the body succeeds, and the degraded
`{selected: null, services: []}` whenever the body raises — nothing
propagates out of the catch. -/
theorem selectOptimalService_never_raises (env : ResolverEnv)
    (alg : SelectionAlgorithm) (st : ResolverState) :
    (∃ r, (ConsulResolver.selectBody env alg st).1 = Except.ok r ∧
      (ConsulResolver.selectOptimalService env alg st).1 = r) ∨
    ((ConsulResolver.selectOptimalService env alg st).1 =
        { selected := none, services := [] } ∧
      ∃ e, (ConsulResolver.selectBody env alg st).1 = Except.error e) := by
  rcases hb : ConsulResolver.selectBody env alg st with ⟨res, st2⟩
  cases res with
  | ok r =>
    left
    refine ⟨r, rfl, ?_⟩
    unfold ConsulResolver.selectOptimalService
    rw [hb]
  | error e =>
    right
    constructor
    · unfold ConsulResolver.selectOptimalService
      rw [hb]
    · exact ⟨e, rfl⟩

/-- C2: when the health fetch yields a non-empty instance list and the DNS
fetch a non-empty record list but no health instance's address appears among
the DNS ips (the matched set is empty), `selectOptimalService` falls back to
selecting from the top-priority SRV records — the result carries the selected
record's ip and port and the sorted record list, not
`{selected: null, services: []}` — and, with the cache enabled and a healthy
store, records the selection timestamp keyed by the record's name. -/
theorem selectOptimalService_dns_fallback (env : ResolverEnv)
    (alg : SelectionAlgorithm) (st : ResolverState)
    (hs : List ServiceHealth) (ds : List SrvRecord)
    (hhc : env.healthChecks = Except.ok hs) (hhne : hs ≠ [])
    (hdns : env.dnsRecords = Except.ok ds) (hdne : ds ≠ [])
    (hnomatch : ∀ c ∈ hs, dnsLookup ds c.Service.Address = none)
    (hcache : env.cacheEnabled = true) (hupd : env.updateFails = false) :
    ∃ sel idx,
      ConsulResolver.selectFromSrvRecords (topPriorityRecords ds) alg
        st.currentIndex env.rand = (some sel, idx) ∧
      (ConsulResolver.selectOptimalService env alg st).1 =
        { selected := some ⟨sel.ip, sel.port⟩
          services := (sortByPriority ds).map (fun r => (⟨r.ip, r.port⟩ : Endpoint)) } ∧
      (ConsulResolver.selectOptimalService env alg st).1 ≠
        { selected := none, services := [] } ∧
      ∃ m, ((ConsulResolver.selectOptimalService env alg st).2).store
          (connectionKey env.cachePfx sel.name) = some m ∧
        m.lastSelectedTime = some env.now := by
  obtain ⟨sel, idx, hsel⟩ := selectFromSrvRecords_isSome (topPriorityRecords ds) alg
    st.currentIndex env.rand (topPriorityRecords_ne_nil ds hdne)
  have hmatched : hs.filter (fun c => (dnsLookup ds c.Service.Address).isSome) = [] := by
    apply List.filter_eq_nil_iff.mpr
    intro c hc
    simp [hnomatch c hc]
  have hfb : ConsulResolver.srvFallback env alg st (sortByPriority ds)
        (topPriorityRecords ds) =
      (Except.ok
        { selected := some ⟨sel.ip, sel.port⟩
          services := (sortByPriority ds).map (fun r => (⟨r.ip, r.port⟩ : Endpoint)) },
        ConsulResolver.updateSelectionMetrics env { st with currentIndex := idx }
          sel.name) := by
    unfold ConsulResolver.srvFallback
    rw [hsel]
  have hbody : ConsulResolver.selectBody env alg st =
      (Except.ok
        { selected := some ⟨sel.ip, sel.port⟩
          services := (sortByPriority ds).map (fun r => (⟨r.ip, r.port⟩ : Endpoint)) },
        ConsulResolver.updateSelectionMetrics env { st with currentIndex := idx }
          sel.name) := by
    unfold ConsulResolver.selectBody
    rw [hhc, hdns]
    show ConsulResolver.selectBodyLists env alg st hs ds = _
    unfold ConsulResolver.selectBodyLists
    rw [if_neg (fun hand => hhne hand.1), if_neg hhne, if_pos hmatched]
    exact hfb
  have hpub : ConsulResolver.selectOptimalService env alg st =
      ({ selected := some ⟨sel.ip, sel.port⟩
         services := (sortByPriority ds).map (fun r => (⟨r.ip, r.port⟩ : Endpoint)) },
        ConsulResolver.updateSelectionMetrics env { st with currentIndex := idx }
          sel.name) := by
    unfold ConsulResolver.selectOptimalService
    rw [hbody]
  refine ⟨sel, idx, hsel, ?_, ?_, ?_⟩
  · rw [hpub]
  · rw [hpub]
    intro hcontra
    simp at hcontra
  · rw [hpub]
    refine ⟨{ ((st.store (connectionKey env.cachePfx sel.name)).getD env.defaults) with
        lastSelectedTime := some env.now }, ?_, rfl⟩
    simp only [ConsulResolver.updateSelectionMetrics, hupd, hcache]
    simp

/-- A sample SRV record whose ip matches no health instance. -/
def srvOther : SrvRecord := ⟨"d.node", "10.9.9.9", 700, 1, 0⟩

/-- A concrete environment for the C2 witness: one healthy instance whose
address appears in no DNS record, cache enabled, store healthy. -/
def envC2 : ResolverEnv :=
  { healthChecks := Except.ok [svcPassing]
    dnsRecords := Except.ok [srvOther]
    metricsExec := Except.ok none
    parseMetrics := fun _ => none
    parseConnInt := fun _ => 0
    rand := 0
    now := 1700000000000
    cacheEnabled := true
    updateFails := false
    defaults := DEFAULT_METRICS
    weights := DEFAULT_WEIGHTS
    cachePfx := "p" }

/-- An empty starting state. -/
def stEmpty : ResolverState := ⟨0, fun _ => none⟩

/-- Witness for C2 at the concrete environment `envC2`. -/
theorem selectOptimalService_dns_fallback_witness :
    ∃ sel idx,
      ConsulResolver.selectFromSrvRecords (topPriorityRecords [srvOther])
        SelectionAlgorithm.RoundRobin stEmpty.currentIndex envC2.rand =
          (some sel, idx) ∧
      (ConsulResolver.selectOptimalService envC2 SelectionAlgorithm.RoundRobin
          stEmpty).1 =
        { selected := some ⟨sel.ip, sel.port⟩
          services := (sortByPriority [srvOther]).map
            (fun r => (⟨r.ip, r.port⟩ : Endpoint)) } ∧
      (ConsulResolver.selectOptimalService envC2 SelectionAlgorithm.RoundRobin
          stEmpty).1 ≠ { selected := none, services := [] } ∧
      ∃ m, ((ConsulResolver.selectOptimalService envC2 SelectionAlgorithm.RoundRobin
            stEmpty).2).store (connectionKey envC2.cachePfx sel.name) = some m ∧
        m.lastSelectedTime = some envC2.now :=
  selectOptimalService_dns_fallback envC2 SelectionAlgorithm.RoundRobin stEmpty
    [svcPassing] [srvOther] rfl (by decide) rfl (by decide) (by decide) rfl rfl
